import Mathlib

/-! Verification of the per-frame visibility and preparation pipeline of
filament/src/View.cpp (class FView) against its natural-language
specification.

Modelling conventions:
* floating point values are modelled by rational numbers (exact arithmetic);
* the structure-of-arrays renderable / light containers are modelled by lists;
* std::partition is modelled by its postcondition witness: the stable
  rearrangement (elements satisfying the predicate first, in order, followed
  by the others) — every property proved here depends only on the
  partition postcondition;
* collaborators that are declared outside View.cpp (Culler::intersects,
  PidController, std::sqrt, the compile-time capacity constants) are
  modelled from the spec, as abstract parameters or parameters of the
  definitions; each such spot is marked in its doc comment.
-/

namespace ViewSpec

/-- Vector of two rationals, modelling math::float2. -/
structure Float2 where
  x : ℚ
  y : ℚ
deriving DecidableEq, Repr

/-- Vector of three rationals, modelling math::float3. -/
structure Float3 where
  x : ℚ
  y : ℚ
  z : ℚ
deriving DecidableEq, Repr

/-- Vector of four rationals, modelling math::float4. -/
structure Float4 where
  x : ℚ
  y : ℚ
  z : ℚ
  w : ℚ
deriving DecidableEq, Repr

/-- The xyz part of a float4, as in the source expression planes[j].xyz. -/
def Float4.xyz (v : Float4) : Float3 := ⟨v.x, v.y, v.z⟩

/-- Componentwise addition of float3 values. -/
def fadd (a b : Float3) : Float3 := ⟨a.x + b.x, a.y + b.y, a.z + b.z⟩

/-- Scaling of a float3 by a scalar, as in planes[j].xyz * planes[j].w. -/
def fscale (a : Float3) (k : ℚ) : Float3 := ⟨a.x * k, a.y * k, a.z * k⟩

/-- Dot product of float3 values, modelling math::dot. -/
def dot3 (a b : Float3) : ℚ := a.x * b.x + a.y * b.y + a.z * b.z

/-- Scalar clamp, modelling math::clamp(v, lo, hi) = min(max(v, lo), hi). -/
def clampQ (v lo hi : ℚ) : ℚ := min (max v lo) hi

/-! Section: Visibility mask bit layout

Modelled from the spec: the VISIBLE_* bit constants are declared in
details/View.h, outside View.cpp.  Spec section 3 (VisibilityMask) fixes the
layout: bit 0 = renderable-visible, bit 1 = directional-shadow-caster,
bits 2 .. 2+K-1 = spot-shadow-caster slot k, where K is the compile-time
maximum number of concurrent spot shadows (CONFIG_MAX_SHADOW_CASTING_SPOTS,
kept as a parameter K below). -/

/-- Mask bit 0: the renderable is visible (VISIBLE_RENDERABLE). -/
def VISIBLE_RENDERABLE : ℕ := 1

/-- Mask bit 1: directional shadow caster (VISIBLE_DIR_SHADOW_RENDERABLE). -/
def VISIBLE_DIR_SHADOW_RENDERABLE : ℕ := 2

/-- Mask bit for spot-shadow slot j (VISIBLE_SPOT_SHADOW_RENDERABLE_N(j)). -/
def VISIBLE_SPOT_SHADOW_RENDERABLE_N (j : ℕ) : ℕ := 1 <<< (2 + j)

/-- Bit position of spot-shadow slot j (VISIBLE_SPOT_SHADOW_RENDERABLE_N_BIT). -/
def VISIBLE_SPOT_SHADOW_RENDERABLE_N_BIT (j : ℕ) : ℕ := 2 + j

/-- Union of all K spot-shadow-slot bits (VISIBLE_SPOT_SHADOW_RENDERABLE). -/
def VISIBLE_SPOT_SHADOW_RENDERABLE (K : ℕ) : ℕ := (2 ^ K - 1) <<< 2

/-! Section: VisibilityClassifier: FView::computeVisibilityMasks -/

/-- Per-renderable visibility flags (FRenderableManager::Visibility fields
used by FView::computeVisibilityMasks). -/
structure Visibility where
  culling : Bool
  castShadows : Bool
  receivesShadows : Bool
deriving DecidableEq, Repr

/-- Value or-ed into the visibility mask by iteration j of the inner
spot-shadow loop of FView::computeVisibilityMasks (View.cpp lines 618-624). -/
def spotShadowContribution (visibleLayers layer : ℕ) (v : Visibility)
    (mask : ℕ) (j : ℕ) : ℕ :=
  let inVisibleLayer : Bool := (layer &&& visibleLayers) ≠ 0
  let visShadowParticipant : Bool := v.castShadows
  let visSpotShadowRenderable : Bool :=
    (!v.culling || (mask &&& VISIBLE_SPOT_SHADOW_RENDERABLE_N j) ≠ 0)
      && inVisibleLayer && visShadowParticipant
  (cond visSpotShadowRenderable 1 0) <<< VISIBLE_SPOT_SHADOW_RENDERABLE_N_BIT j

/-- One loop iteration of FView::computeVisibilityMasks (View.cpp lines
584-626): recomputes the visibility mask of a single element from its layer
mask, its visibility flags and the raw geometric-test bits already present in
the mask.  K is the number of spot-shadow slots (the source loop bound
CONFIG_MAX_SHADOW_CASTING_SPOTS, a compile-time constant declared outside
View.cpp and therefore kept as a parameter). -/
def computeVisibilityMask (K : ℕ) (visibleLayers layer : ℕ) (v : Visibility)
    (mask : ℕ) : ℕ :=
  let inVisibleLayer : Bool := (layer &&& visibleLayers) ≠ 0
  let visRenderables : Bool :=
    (!v.culling || (mask &&& VISIBLE_RENDERABLE) ≠ 0) && inVisibleLayer
  let visShadowParticipant : Bool := v.castShadows
  let visShadowRenderable : Bool :=
    (!v.culling || (mask &&& VISIBLE_DIR_SHADOW_RENDERABLE) ≠ 0)
      && inVisibleLayer && visShadowParticipant
  let base : ℕ := (cond visRenderables 1 0) ||| ((cond visShadowRenderable 1 0) <<< 1)
  (List.range K).foldl
    (fun acc j => acc ||| spotShadowContribution visibleLayers layer v mask j) base

/-- The whole computeVisibilityMasks pass over the (already padded) arrays,
elementwise over parallel lists zipped into tuples (layer, flags, mask). -/
def computeVisibilityMasks (K : ℕ) (visibleLayers : ℕ)
    (rows : List (ℕ × Visibility × ℕ)) : List ℕ :=
  rows.map fun r => computeVisibilityMask K visibleLayers r.1 r.2.1 r.2.2

/-! Section: RenderableSetPartitioner: FView::partition and the partition passes
of FView::prepare -/

/-- Postcondition witness of std::partition: the elements satisfying p, in
order, followed by those that do not.  std::partition guarantees exactly this
partition shape (up to the unspecified relative order inside each block);
every theorem below depends only on that postcondition. -/
def partitionList (p : ℕ → Bool) (l : List ℕ) : List ℕ :=
  l.filter p ++ l.filter (fun m => !(p m))

/-- Predicate of FView::partition (View.cpp lines 628-639): keeps elements
whose mask, restricted to the two low bits VISIBLE_RENDERABLE and
VISIBLE_DIR_SHADOW_RENDERABLE, equals the given mask value. -/
def partitionPred (maskv : ℕ) (m : ℕ) : Bool :=
  (m &&& (VISIBLE_RENDERABLE ||| VISIBLE_DIR_SHADOW_RENDERABLE)) == maskv

/-- FView::partition(begin, end, mask): std::partition of the range with
partitionPred mask. -/
def fviewPartition (maskv : ℕ) (l : List ℕ) : List ℕ :=
  partitionList (partitionPred maskv) l

/-- Predicate of the final std::partition in FView::prepare (View.cpp lines
533-536): the element has at least one spot-shadow-caster bit set. -/
def spotPred (K : ℕ) (m : ℕ) : Bool :=
  (m &&& VISIBLE_SPOT_SHADOW_RENDERABLE K) ≠ 0

/-- The three FView::partition passes followed by the final std::partition,
as performed by FView::prepare (View.cpp lines 527-544).  Returns the
reordered mask list together with the four boundary indices
(beginCasters, beginCastersOnly, beginSpotLightCastersOnly,
endSpotLightCastersOnly), each measured from the beginning of the array. -/
def prepPartition (K : ℕ) (ms : List ℕ) : List ℕ × ℕ × ℕ × ℕ × ℕ :=
  let s1 := fviewPartition VISIBLE_RENDERABLE ms
  let b1 := (ms.filter (partitionPred VISIBLE_RENDERABLE)).length
  let t1 := s1.drop b1
  let s2 := s1.take b1 ++
    fviewPartition (VISIBLE_RENDERABLE ||| VISIBLE_DIR_SHADOW_RENDERABLE) t1
  let b2 := b1 + (t1.filter
    (partitionPred (VISIBLE_RENDERABLE ||| VISIBLE_DIR_SHADOW_RENDERABLE))).length
  let t2 := s2.drop b2
  let s3 := s2.take b2 ++ fviewPartition VISIBLE_DIR_SHADOW_RENDERABLE t2
  let b3 := b2 + (t2.filter (partitionPred VISIBLE_DIR_SHADOW_RENDERABLE)).length
  let t3 := s3.drop b3
  let s4 := s3.take b3 ++ partitionList (spotPred K) t3
  let b4 := b3 + (t3.filter (spotPred K)).length
  (s4, b1, b2, b3, b4)

/-- Group 1 of the partition: visible renderables that are not directional
shadow casters (low mask bits equal to VISIBLE_RENDERABLE). -/
def group1 (ms : List ℕ) : List ℕ :=
  ms.filter (partitionPred VISIBLE_RENDERABLE)

/-- Elements left after extracting group 1. -/
def rest1 (ms : List ℕ) : List ℕ :=
  ms.filter (fun m => !(partitionPred VISIBLE_RENDERABLE m))

/-- Group 2: visible renderables that are also directional shadow casters. -/
def group2 (ms : List ℕ) : List ℕ :=
  (rest1 ms).filter
    (partitionPred (VISIBLE_RENDERABLE ||| VISIBLE_DIR_SHADOW_RENDERABLE))

/-- Elements left after extracting groups 1 and 2. -/
def rest2 (ms : List ℕ) : List ℕ :=
  (rest1 ms).filter
    (fun m => !(partitionPred (VISIBLE_RENDERABLE ||| VISIBLE_DIR_SHADOW_RENDERABLE) m))

/-- Group 3: directional shadow casters that are not visible renderables. -/
def group3 (ms : List ℕ) : List ℕ :=
  (rest2 ms).filter (partitionPred VISIBLE_DIR_SHADOW_RENDERABLE)

/-- Elements left after extracting groups 1, 2 and 3. -/
def rest3 (ms : List ℕ) : List ℕ :=
  (rest2 ms).filter (fun m => !(partitionPred VISIBLE_DIR_SHADOW_RENDERABLE m))

/-- Group 4: spot-shadow casters only. -/
def group4 (K : ℕ) (ms : List ℕ) : List ℕ :=
  (rest3 ms).filter (spotPred K)

/-- Group 5: the invisible remainder. -/
def group5 (K : ℕ) (ms : List ℕ) : List ℕ :=
  (rest3 ms).filter (fun m => !(spotPred K m))

/-- Half-open index range, modelling utils::Range{first, last}. -/
structure Range where
  first : ℕ
  last : ℕ
deriving DecidableEq, Repr

/-- Number of indices in a range, modelling utils::Range::size(). -/
def Range.size (r : Range) : ℕ := r.last - r.first

/-- The ranges computed by FView::prepare from the partition boundaries
(View.cpp lines 538-544), together with the merged buffer-upload range. -/
structure PrepareRanges where
  visibleRenderables : Range
  visibleDirectionalShadowCasters : Range
  spotLightShadowCasters : Range
  merged : Range
deriving DecidableEq, Repr

/-- Range computation of FView::prepare: converts the partition boundary
iterators to indices and builds mVisibleRenderables,
mVisibleDirectionalShadowCasters, mSpotLightShadowCasters and merged. -/
def prepareRanges (K : ℕ) (ms : List ℕ) : PrepareRanges :=
  let r := prepPartition K ms
  let b1 := r.2.1
  let b2 := r.2.2.1
  let iEnd := r.2.2.2.1
  let iSpotLightCastersEnd := r.2.2.2.2
  { visibleRenderables := ⟨0, b2⟩
    visibleDirectionalShadowCasters := ⟨b1, iEnd⟩
    spotLightShadowCasters := ⟨0, iSpotLightCastersEnd⟩
    merged := ⟨0, iSpotLightCastersEnd⟩ }

/-- Upload decision of FView::prepare (View.cpp lines 546-561): the UBO
update scene->updateUBOs(merged, ...) runs exactly when
size = merged.size() * sizeof(PerRenderableUib) is nonzero.
sizeof(PerRenderableUib) is a positive compile-time constant declared outside
View.cpp; it is kept as the parameter uibSize. -/
def uploadPerformed (K : ℕ) (ms : List ℕ) (uibSize : ℕ) : Bool :=
  (prepareRanges K ms).merged.size * uibSize ≠ 0

/-! Section: LightVisibilityProcessor: FView::prepareVisibleLights -/

/-- One row of the light structure-of-arrays (FScene::LightSoa), together
with the per-instance FLightManager query results used by
FView::prepareVisibleLights and FView::prepareShadowing.  The light manager
is an external collaborator queried through the light instance handle, so its
per-light answers are carried as fields of the record.  The field lid is an
identity tag used only to track records across the rearrangements. -/
structure LightRecord where
  posRadius : Float4
  direction : Float3
  visible : Bool
  hasInstance : Bool
  isLightCaster : Bool
  intensity : ℚ
  isSpot : Bool
  cosOuterSquared : ℚ
  isShadowCaster : Bool
  lid : ℕ
deriving DecidableEq, Repr

/-- Spot-light cone/frustum separation test of FView::prepareVisibleLights
(View.cpp lines 786-796): the light is invisible when, for some frustum
plane, 1 - c*c < cosSqr and c > 0 and p > 0, where
c = dot(planes[j].xyz, axis) and
p = dot(position + planes[j].xyz * planes[j].w, planes[j].xyz). -/
def spotConeCull (planes : List Float4) (position axis : Float3)
    (cosSqr : ℚ) : Bool :=
  planes.any fun pl =>
    let p := dot3 (fadd position (fscale pl.xyz pl.w)) pl.xyz
    let c := dot3 pl.xyz axis
    decide ((1 - c * c) < cosSqr) && decide (c > 0) && decide (p > 0)

/-- Filtering step applied by FView::prepareVisibleLights to each positional
light (View.cpp lines 771-800): a light whose visible flag survived the
sphere-frustum test loses it when it is not a light caster, or its intensity
is non-positive, or it is a spot light excluded by the cone/frustum
separation test; otherwise the light is left unchanged. -/
def cullLightStep (planes : List Float4) (l : LightRecord) : LightRecord :=
  if l.visible then
    if !l.isLightCaster then { l with visible := false }
    else if l.intensity ≤ 0 then { l with visible := false }
    else if l.isSpot && spotConeCull planes l.posRadius.xyz l.direction
        l.cosOuterSquared then { l with visible := false }
    else l
  else l

/-- Squared camera-space distance of a light, the sort key of
FView::computeLightCameraDistances (View.cpp lines 849-863): the source
stores length(camera.view * sphere.xyz); for nonnegative lengths, ordering
by length and ordering by squared length agree, and the squared form stays
inside the rationals.  The view transform is an external CameraInfo value
and is kept abstract as a function on positions. -/
def distSq (view : Float3 → Float3) (l : LightRecord) : ℚ :=
  let c := view l.posRadius.xyz
  c.x * c.x + c.y * c.y + c.z * c.z

/-- Comparison used to sort the positional lights, modelling the std::sort
comparator lhs.second < rhs.second on the zipped (light, distance) pairs;
mergeSort with the reflexive closure of that comparator produces a
rearrangement sorted by non-decreasing distance, which is exactly the
std::sort postcondition. -/
def distLE (view : Float3 → Float3) (a b : LightRecord) : Bool :=
  distSq view a ≤ distSq view b

/-- FView::prepareVisibleLights (View.cpp lines 755-844).
Parameters modelled from the spec because they live outside View.cpp:
sphereTest is the per-light sphere-frustum intersection predicate written by
Culler::intersects into the whole visibility array (spec section 4.2: the
culler writes, for each element of the range it is given, whether its bounding
sphere intersects the frustum); view is the camera view transform used for
the distances; cap is CONFIG_MAX_LIGHT_COUNT.  Steps, as in the source:
sphere test over the whole array, filtering of positional lights, partition
of the positional lights so visible ones are contiguous from index 1,
distance sort of the visible positional lights, and the final resize to
min(visibleLightCount, cap + 1). -/
def prepareVisibleLights (cap : ℕ) (sphereTest : LightRecord → Bool)
    (view : Float3 → Float3) (planes : List Float4)
    (lights : List LightRecord) : List LightRecord :=
  let tested := lights.map fun l => { l with visible := sphereTest l }
  match tested with
  | [] => []
  | dir :: positional =>
    let filtered := positional.map (cullLightStep planes)
    let vis := filtered.filter (fun l => l.visible)
    let invis := filtered.filter (fun l => !l.visible)
    let visibleLightCount := 1 + vis.length
    let sortedVis := vis.mergeSort (distLE view)
    (dir :: (sortedVis ++ invis)).take (min visibleLightCount (cap + 1))

/-- The distance-sorted list of surviving visible positional lights built
inside prepareVisibleLights, before the final capacity cut (used to state
which lights the resize drops). -/
def sortedVisibleLights (sphereTest : LightRecord → Bool)
    (view : Float3 → Float3) (planes : List Float4)
    (lights : List LightRecord) : List LightRecord :=
  match lights.map (fun l => { l with visible := sphereTest l }) with
  | [] => []
  | _ :: positional =>
    ((positional.map (cullLightStep planes)).filter
      (fun l => l.visible)).mergeSort (distLE view)

/-! Section: ShadowSetupCoordinator: the spot-shadow registration loop of
FView::prepareShadowing -/

/-- Qualification test of the spot-shadow loop (View.cpp lines 319-331): the
light instance is valid, casts shadows, and is a spot light. -/
def spotQualifies (l : LightRecord) : Bool :=
  l.hasInstance && l.isShadowCaster && l.isSpot

/-- Loop body of FView::prepareShadowing over the positional lights
(View.cpp lines 314-339): each qualifying light is registered through
addSpotShadowMap(l, ...) (we record the index l), the counter is incremented,
and the loop breaks once shadowCastingSpotCount > cap - 1 (cap is
CONFIG_MAX_SHADOW_CASTING_SPOTS, a compile-time constant declared outside
View.cpp, kept as a parameter; the source subtraction is on size_t, which
agrees with the ℕ subtraction used here whenever cap ≥ 1). -/
def spotLoop (cap : ℕ) : ℕ → ℕ → List LightRecord → List ℕ
  | _, _, [] => []
  | idx, count, l :: rest =>
    if spotQualifies l then
      idx :: (if count + 1 > cap - 1 then []
              else spotLoop cap (idx + 1) (count + 1) rest)
    else spotLoop cap (idx + 1) count rest

/-- The addSpotShadowMap registrations performed by FView::prepareShadowing:
the loop starts at index FScene::DIRECTIONAL_LIGHTS_COUNT = 1 with the
counter at zero. -/
def addSpotShadowMapCalls (cap : ℕ) (lightData : List LightRecord) : List ℕ :=
  spotLoop cap 1 0 (lightData.drop 1)

/-! Section: FView::setVisibleLayers -/

/-- FView::setVisibleLayers (View.cpp lines 276-278):
mVisibleLayers = (mVisibleLayers & ~select) | (values & select), on 8-bit
values; the uint8_t complement ~select is select XOR 255. -/
def setVisibleLayers (mVisibleLayers select values : ℕ) : ℕ :=
  (mVisibleLayers &&& (select ^^^ 255)) ||| (values &&& select)

/-! Section: DynamicResolutionController: FView::updateScale -/

/-- Dynamic-resolution options consumed by FView::updateScale (the fields of
DynamicResolutionOptions that the function reads). -/
structure DynResOptions where
  enabled : Bool
  homogeneousScaling : Bool
  minScale : Float2
  maxScale : Float2
deriving DecidableEq, Repr

/-- Result of one FView::updateScale call: the new internal scale state
mScale and the value returned to the caller. -/
structure ScaleResult where
  internal : Float2
  reported : Float2
deriving DecidableEq, Repr

/-- Componentwise clamp of a float2 against float2 bounds. -/
def clamp2 (v lo hi : Float2) : Float2 :=
  ⟨clampQ v.x lo.x hi.x, clampQ v.y lo.y hi.y⟩

/-- FView::updateScale (View.cpp lines 158-274), for one call.
Parameters modelled from the spec because they live outside View.cpp:
pidOut is the output of PidController::update for this frame (the controller
is an external collaborator; the properties proved below hold for every
possible controller output), and sqrtA models std::sqrt (an arbitrary
function on the rational field; the clamping and rounding properties hold
for every choice).  infoValid is info.valid, w and h are the viewport width
and height, and mScale is the internal scale state entering the call.
When dynamic resolution is disabled, both the internal state and the
returned scale are 1.  When the frame-timing sample is invalid, the internal
state becomes clamp(1, minScale, maxScale) and is returned directly, without
consulting the controller.  Otherwise the PID output is mapped to a
multiplicative command, the candidate scale is distributed over the two axes
(anisotropically when shrinking with homogeneous scaling off), clamped, and
the returned scale is rounded per axis so the scaled viewport dimension is a
multiple of 8 — except for an axis whose internal scale is exactly 1. -/
def updateScale (sqrtA : ℚ → ℚ) (pidOut : ℚ) (options : DynResOptions)
    (infoValid : Bool) (w h : ℚ) (mScale : Float2) : ScaleResult :=
  if options.enabled then
    if !infoValid then
      let s := clamp2 ⟨1, 1⟩ options.minScale options.maxScale
      ⟨s, s⟩
    else
      let command := if pidOut < 0 then 1 / (1 - pidOut) else 1 + pidOut
      let scale := mScale.x * mScale.y * command
      let s1 : Float2 :=
        if scale < 1 ∧ options.homogeneousScaling = false then
          let major := max w h
          let minor := min w h
          let maxMajorScale := minor / major
          let majorScale := max scale maxMajorScale
          let minorScale := max (scale / majorScale) (majorScale * maxMajorScale)
          let homogeneousScale := scale / (majorScale * minorScale)
          if w > h then
            ⟨sqrtA homogeneousScale * majorScale, sqrtA homogeneousScale * minorScale⟩
          else
            ⟨sqrtA homogeneousScale * minorScale, sqrtA homogeneousScale * majorScale⟩
        else
          ⟨sqrtA scale, sqrtA scale⟩
      let internal := clamp2 s1 options.minScale options.maxScale
      let rx := if internal.x = 1 then 1 else ((⌊internal.x * w / 8⌋ : ℚ) * 8) / w
      let ry := if internal.y = 1 then 1 else ((⌊internal.y * h / 8⌋ : ℚ) * 8) / h
      ⟨internal, ⟨rx, ry⟩⟩
  else
    ⟨⟨1, 1⟩, ⟨1, 1⟩⟩

/-- Sample shadow-casting spot light used to instantiate the C8 scenario. -/
def spotSample : LightRecord :=
  ⟨⟨0, 0, 0, 1⟩, ⟨0, 0, 1⟩, true, true, true, 1, true, 0, true, 0⟩

/-- Sample positional light close to the camera (squared distance 1 under
the identity view transform). -/
def nearSample : LightRecord :=
  ⟨⟨1, 0, 0, 1⟩, ⟨0, 0, 1⟩, true, true, true, 1, false, 0, false, 1⟩

/-- Sample positional light farther from the camera (squared distance 4
under the identity view transform). -/
def farSample : LightRecord :=
  ⟨⟨2, 0, 0, 1⟩, ⟨0, 0, 1⟩, true, true, true, 1, false, 0, false, 2⟩

/-! Section: General helper lemmas -/

/-- Intersecting a mask with the single bit 1 <<< k is nonzero exactly when
bit k of the mask is set. -/
theorem and_shift_ne_zero (m k : ℕ) :
    (m &&& (1 <<< k) ≠ 0) ↔ m.testBit k = true := by
  rw [Nat.shiftLeft_eq, one_mul, Nat.and_two_pow]
  cases h : m.testBit k
  · simp
  · have h2 : 0 < 2 ^ k := Nat.pos_pow_of_pos _ (by omega)
    simp [h2.ne']

/-- Lower and upper bound of the scalar clamp, for ordered bounds. -/
theorem clampQ_mem (v lo hi : ℚ) (h : lo ≤ hi) :
    lo ≤ clampQ v lo hi ∧ clampQ v lo hi ≤ hi := by
  constructor
  · exact le_min (le_max_right v lo) h
  · exact min_le_right _ _

/-- Bits produced by an or-accumulating fold: exactly the bits of the
start value together with the bits contributed by some performed
iteration. -/
theorem foldl_or_testBit (f : ℕ → ℕ) (n : ℕ) :
    ∀ (K : ℕ) (base : ℕ),
      (((List.range K).foldl (fun acc j => acc ||| f j) base).testBit n = true ↔
        (base.testBit n = true ∨ ∃ j, j < K ∧ (f j).testBit n = true)) := by
  intro K
  induction K with
  | zero => intro base; simp
  | succ K ih =>
    intro base
    rw [List.range_succ, List.foldl_append]
    simp only [List.foldl_cons, List.foldl_nil, Nat.testBit_or, Bool.or_eq_true]
    rw [ih]
    constructor
    · rintro ((hb | ⟨j, hj, hf⟩) | hK)
      · exact Or.inl hb
      · exact Or.inr ⟨j, by omega, hf⟩
      · exact Or.inr ⟨K, by omega, hK⟩
    · rintro (hb | ⟨j, hj, hf⟩)
      · exact Or.inl (Or.inl hb)
      · by_cases hjK : j < K
        · exact Or.inl (Or.inr ⟨j, hjK, hf⟩)
        · have hje : j = K := by omega
          subst hje
          exact Or.inr hf

/-- Bit n of the single-bit value cond b 1 0. -/
theorem cond_one_zero_testBit (b : Bool) (n : ℕ) :
    (cond b 1 0).testBit n = (b && decide (n = 0)) := by
  cases b <;> cases n <;> simp [Nat.testBit_succ]

/-- Bits of a spot-slot contribution: only bit 2 + j can be set, and it
carries the slot-j spot visibility condition. -/
theorem spotShadowContribution_testBit (vL layer : ℕ) (v : Visibility)
    (mask : ℕ) (j n : ℕ) :
    ((spotShadowContribution vL layer v mask j).testBit n = true ↔
      (n = 2 + j ∧
        (((!v.culling || decide ((mask &&& VISIBLE_SPOT_SHADOW_RENDERABLE_N j) ≠ 0))
          && decide ((layer &&& vL) ≠ 0) && v.castShadows) = true))) := by
  unfold spotShadowContribution VISIBLE_SPOT_SHADOW_RENDERABLE_N_BIT
  simp only [Nat.testBit_shiftLeft, cond_one_zero_testBit, Bool.and_eq_true,
    decide_eq_true_eq]
  constructor
  · rintro ⟨h1, h2, h3⟩
    exact ⟨by omega, h2⟩
  · rintro ⟨h1, h2⟩
    exact ⟨by omega, h2, by omega⟩

/-- The two low mask bits written before the spot loop never touch bit
positions 2 and above. -/
theorem base_testBit_ge_two (A B : Bool) (n : ℕ) (hn : 2 ≤ n) :
    ((cond A 1 0) ||| ((cond B 1 0) <<< 1)).testBit n = false := by
  have h4 : (cond A 1 0) ||| ((cond B 1 0) <<< 1) < 4 := by
    cases A <;> cases B <;> decide
  have hpow : (4 : ℕ) ≤ 2 ^ n :=
    le_trans (by norm_num) (Nat.pow_le_pow_right (by omega) hn)
  exact Nat.testBit_lt_two_pow (by omega)

/-- Normal form of the three FView::partition passes followed by the final
std::partition: the resulting array is the concatenation of the five groups
and the boundary indices are the partial sums of their lengths. -/
theorem prepPartition_eq (K : ℕ) (ms : List ℕ) :
    prepPartition K ms =
      (group1 ms ++ (group2 ms ++ (group3 ms ++ (group4 K ms ++ group5 K ms))),
        (group1 ms).length,
        (group1 ms).length + (group2 ms).length,
        (group1 ms).length + (group2 ms).length + (group3 ms).length,
        (group1 ms).length + (group2 ms).length + (group3 ms).length +
          (group4 K ms).length) := by
  simp only [prepPartition, fviewPartition, partitionList, group1, group2,
    group3, group4, group5, rest1, rest2, rest3, List.append_assoc,
    Nat.add_assoc, List.take_append, List.drop_append, List.take_left,
    List.drop_left]

/-- The concatenation of the five groups is a rearrangement of the input. -/
theorem groups_perm (K : ℕ) (ms : List ℕ) :
    (group1 ms ++ (group2 ms ++ (group3 ms ++ (group4 K ms ++ group5 K ms)))).Perm
      ms := by
  have h4 : (group4 K ms ++ group5 K ms).Perm (rest3 ms) :=
    List.filter_append_perm _ _
  have h3 : (group3 ms ++ rest3 ms).Perm (rest2 ms) :=
    List.filter_append_perm _ _
  have h2 : (group2 ms ++ rest2 ms).Perm (rest1 ms) :=
    List.filter_append_perm _ _
  have h1 : (group1 ms ++ rest1 ms).Perm ms := List.filter_append_perm _ _
  refine ((List.Perm.append_left _ (List.Perm.append_left _
    (List.Perm.append_left _ h4))).trans ?_)
  refine ((List.Perm.append_left _ (List.Perm.append_left _ h3)).trans ?_)
  exact (List.Perm.append_left _ h2).trans h1

/-- Numeric value of the two-bit partition key mask. -/
theorem low_mask_eq_three :
    VISIBLE_RENDERABLE ||| VISIBLE_DIR_SHADOW_RENDERABLE = 3 := by decide

/-- Elements of group 1 have partition key VISIBLE_RENDERABLE. -/
theorem mem_group1_key (ms : List ℕ) (m : ℕ) (hm : m ∈ group1 ms) :
    m &&& (VISIBLE_RENDERABLE ||| VISIBLE_DIR_SHADOW_RENDERABLE) =
      VISIBLE_RENDERABLE := by
  have h := (List.mem_filter.mp hm).2
  simpa [partitionPred] using h

/-- Elements of group 2 have both low mask bits set. -/
theorem mem_group2_key (ms : List ℕ) (m : ℕ) (hm : m ∈ group2 ms) :
    m &&& (VISIBLE_RENDERABLE ||| VISIBLE_DIR_SHADOW_RENDERABLE) =
      VISIBLE_RENDERABLE ||| VISIBLE_DIR_SHADOW_RENDERABLE := by
  have h := (List.mem_filter.mp hm).2
  simpa [partitionPred] using h

/-- Elements of group 3 have partition key VISIBLE_DIR_SHADOW_RENDERABLE. -/
theorem mem_group3_key (ms : List ℕ) (m : ℕ) (hm : m ∈ group3 ms) :
    m &&& (VISIBLE_RENDERABLE ||| VISIBLE_DIR_SHADOW_RENDERABLE) =
      VISIBLE_DIR_SHADOW_RENDERABLE := by
  have h := (List.mem_filter.mp hm).2
  simpa [partitionPred] using h

/-- Elements surviving the first three partitions have no low mask bits. -/
theorem mem_rest3_key (ms : List ℕ) (m : ℕ) (hm : m ∈ rest3 ms) :
    m &&& (VISIBLE_RENDERABLE ||| VISIBLE_DIR_SHADOW_RENDERABLE) = 0 := by
  obtain ⟨hm2, h3⟩ := List.mem_filter.mp hm
  obtain ⟨hm1, h2⟩ := List.mem_filter.mp hm2
  obtain ⟨_, h1⟩ := List.mem_filter.mp hm1
  simp only [partitionPred, Bool.not_eq_eq_eq_not, Bool.not_true, beq_eq_false_iff_ne,
    ne_eq] at h1 h2 h3
  rw [low_mask_eq_three] at h1 h2 h3 ⊢
  simp only [VISIBLE_RENDERABLE, VISIBLE_DIR_SHADOW_RENDERABLE] at h1 h2 h3
  have hle : m &&& 3 ≤ 3 := Nat.and_le_right
  omega

/-- A bitwise or of naturals vanishes exactly when both operands vanish. -/
theorem or_eq_zero_iffN (a b : ℕ) : (a ||| b = 0) ↔ (a = 0 ∧ b = 0) := by
  constructor
  · intro h
    have hb : ∀ i, a.testBit i = false ∧ b.testBit i = false := by
      intro i
      have hc := congrArg (fun t => t.testBit i) h
      simpa [Nat.testBit_or] using hc
    constructor
    · apply Nat.eq_of_testBit_eq
      intro i
      simp [(hb i).1]
    · apply Nat.eq_of_testBit_eq
      intro i
      simp [(hb i).2]
  · rintro ⟨rfl, rfl⟩
    rfl

/-- Field normal form of the range computation of FView::prepare. -/
theorem prepareRanges_eq (K : ℕ) (ms : List ℕ) :
    prepareRanges K ms =
      { visibleRenderables := ⟨0, (prepPartition K ms).2.2.1⟩
        visibleDirectionalShadowCasters :=
          ⟨(prepPartition K ms).2.1, (prepPartition K ms).2.2.2.1⟩
        spotLightShadowCasters := ⟨0, (prepPartition K ms).2.2.2.2⟩
        merged := ⟨0, (prepPartition K ms).2.2.2.2⟩ } := rfl

/-- Invariant of the spot-shadow registration loop: while the counter is
below the cap, the number of registrations is the number of qualifying
lights, truncated at the remaining capacity. -/
theorem spotLoop_length (cap : ℕ) (ls : List LightRecord) :
    ∀ idx count, count < cap →
      (spotLoop cap idx count ls).length =
        min (cap - count) (ls.filter spotQualifies).length := by
  induction ls with
  | nil => intro idx count h; simp [spotLoop]
  | cons l rest ih =>
    intro idx count h
    simp only [spotLoop, List.filter_cons]
    by_cases hq : spotQualifies l = true
    · rw [if_pos hq, if_pos hq]
      by_cases hbr : count + 1 > cap - 1
      · rw [if_pos hbr]
        simp only [List.length_cons, List.length_nil]
        omega
      · rw [if_neg hbr]
        simp only [List.length_cons]
        rw [ih (idx + 1) (count + 1) (by omega)]
        omega
    · rw [if_neg hq, if_neg hq]
      exact ih (idx + 1) count h

/-! Section: Claim theorems -/

/-- Internal scale state after any enabled FView::updateScale call: both
branches end in a componentwise clamp against the configured bounds. -/
theorem updateScale_internal_clamp (sqrtA : ℚ → ℚ) (pidOut : ℚ)
    (options : DynResOptions) (infoValid : Bool) (w h : ℚ) (mScale : Float2)
    (hen : options.enabled = true) :
    ∃ s : Float2,
      (updateScale sqrtA pidOut options infoValid w h mScale).internal =
        clamp2 s options.minScale options.maxScale := by
  cases infoValid
  · simp only [updateScale, hen, Bool.not_false, if_true]
    exact ⟨_, rfl⟩
  · simp only [updateScale, hen, Bool.not_true, if_true, Bool.false_eq_true,
      if_false]
    exact ⟨_, rfl⟩

/-- Multiplying the rounded scale back by the viewport dimension recovers an
integer multiple of 8. -/
theorem floor_mul8_div (u w : ℚ) (hw : w ≠ 0) :
    ∃ k : ℤ, ((⌊u⌋ : ℚ) * 8) / w * w = 8 * k :=
  ⟨⌊u⌋, by rw [div_mul_cancel₀ _ hw]; ring⟩

/-- C1: after the three FView::partition passes and the final std::partition
of FView::prepare, the four boundary indices are monotone and bounded by the
array length, so the five groups occupy contiguous, pairwise-disjoint index
ranges, in order, whose union is exactly the whole index interval; the
reordered array is a rearrangement of the input, and every element of each
range satisfies its group's classification: (1) low mask bits equal to
VISIBLE_RENDERABLE, (2) both low bits, (3) only the directional bit, (4) no
low bits but some spot bit, (5) no low bits and no spot bit. -/
theorem prepare_partition_five_groups (K : ℕ) (ms : List ℕ) :
    (prepPartition K ms).1.length = ms.length ∧
    ((prepPartition K ms).1.Perm ms) ∧
    (prepPartition K ms).2.1 ≤ (prepPartition K ms).2.2.1 ∧
    (prepPartition K ms).2.2.1 ≤ (prepPartition K ms).2.2.2.1 ∧
    (prepPartition K ms).2.2.2.1 ≤ (prepPartition K ms).2.2.2.2 ∧
    (prepPartition K ms).2.2.2.2 ≤ ms.length ∧
    (∀ m ∈ (prepPartition K ms).1.take (prepPartition K ms).2.1,
      m &&& (VISIBLE_RENDERABLE ||| VISIBLE_DIR_SHADOW_RENDERABLE) =
        VISIBLE_RENDERABLE) ∧
    (∀ m ∈ ((prepPartition K ms).1.take (prepPartition K ms).2.2.1).drop
        (prepPartition K ms).2.1,
      m &&& (VISIBLE_RENDERABLE ||| VISIBLE_DIR_SHADOW_RENDERABLE) =
        VISIBLE_RENDERABLE ||| VISIBLE_DIR_SHADOW_RENDERABLE) ∧
    (∀ m ∈ ((prepPartition K ms).1.take (prepPartition K ms).2.2.2.1).drop
        (prepPartition K ms).2.2.1,
      m &&& (VISIBLE_RENDERABLE ||| VISIBLE_DIR_SHADOW_RENDERABLE) =
        VISIBLE_DIR_SHADOW_RENDERABLE) ∧
    (∀ m ∈ ((prepPartition K ms).1.take (prepPartition K ms).2.2.2.2).drop
        (prepPartition K ms).2.2.2.1,
      m &&& (VISIBLE_RENDERABLE ||| VISIBLE_DIR_SHADOW_RENDERABLE) = 0 ∧
        m &&& VISIBLE_SPOT_SHADOW_RENDERABLE K ≠ 0) ∧
    (∀ m ∈ (prepPartition K ms).1.drop (prepPartition K ms).2.2.2.2,
      m &&& (VISIBLE_RENDERABLE ||| VISIBLE_DIR_SHADOW_RENDERABLE) = 0 ∧
        m &&& VISIBLE_SPOT_SHADOW_RENDERABLE K = 0) := by
  rw [prepPartition_eq]
  dsimp only
  refine ⟨?_, ?_, ?_, ?_, ?_, ?_, ?_, ?_, ?_, ?_, ?_⟩
  · exact (groups_perm K ms).length_eq
  · exact groups_perm K ms
  · omega
  · omega
  · omega
  · have hlen := (groups_perm K ms).length_eq
    simp only [List.length_append] at hlen
    omega
  · intro m hm
    rw [List.take_left] at hm
    exact mem_group1_key ms m hm
  · intro m hm
    simp only [List.take_append, List.take_left, List.drop_left] at hm
    exact mem_group2_key ms m hm
  · intro m hm
    simp only [Nat.add_assoc, List.take_append, List.take_left,
      List.drop_append, List.drop_left] at hm
    exact mem_group3_key ms m hm
  · intro m hm
    simp only [Nat.add_assoc, List.take_append, List.take_left,
      List.drop_append, List.drop_left] at hm
    obtain ⟨hmem, hsp⟩ := List.mem_filter.mp hm
    refine ⟨mem_rest3_key ms m hmem, ?_⟩
    simpa [spotPred] using hsp
  · intro m hm
    simp only [Nat.add_assoc, List.drop_append, List.drop_left] at hm
    obtain ⟨hmem, hsp⟩ := List.mem_filter.mp hm
    refine ⟨mem_rest3_key ms m hmem, ?_⟩
    simpa [spotPred] using hsp

/-- Witness for C1 at a concrete five-element mask array with one element in
each group (one spot-shadow slot): the element of group 1 indeed has key
VISIBLE_RENDERABLE. -/
theorem prepare_partition_five_groups_witness :
    (1 ∈ (prepPartition 1 [1, 3, 2, 4, 0]).1.take
      (prepPartition 1 [1, 3, 2, 4, 0]).2.1) ∧
    (1 : ℕ) &&& (VISIBLE_RENDERABLE ||| VISIBLE_DIR_SHADOW_RENDERABLE) =
      VISIBLE_RENDERABLE :=
  ⟨by decide,
    (prepare_partition_five_groups 1 [1, 3, 2, 4, 0]).2.2.2.2.2.2.1 1 (by decide)⟩

/-- C9: the buffer-upload range merged of FView::prepare starts at index 0
and ends at endSpotLightCastersOnly, hence covers exactly partition groups 1
through 4 (the indices below the boundary are exactly those whose mask
intersects the renderable, directional-shadow or spot-shadow bits);
scene->updateUBOs runs exactly when that range is non-empty; the exposed
visibleRenderables range starts with merged and ends no later, so the upload
range subsumes it together with the adjacent group-4
(spot-shadow-caster-only) elements, and mSpotLightShadowCasters coincides
with the merged upload range. -/
theorem prepare_merged_upload_range (K : ℕ) (ms : List ℕ) (uibSize : ℕ)
    (hu : 0 < uibSize) :
    (prepareRanges K ms).merged = ⟨0, (prepPartition K ms).2.2.2.2⟩ ∧
    (uploadPerformed K ms uibSize = true ↔
      (prepareRanges K ms).merged.size ≠ 0) ∧
    (prepareRanges K ms).visibleRenderables.first =
      (prepareRanges K ms).merged.first ∧
    (prepareRanges K ms).visibleRenderables.last ≤
      (prepareRanges K ms).merged.last ∧
    (prepareRanges K ms).visibleDirectionalShadowCasters.last ≤
      (prepareRanges K ms).merged.last ∧
    (prepareRanges K ms).spotLightShadowCasters = (prepareRanges K ms).merged ∧
    (∀ m ∈ (prepPartition K ms).1.take (prepareRanges K ms).merged.last,
      m &&& (VISIBLE_RENDERABLE ||| VISIBLE_DIR_SHADOW_RENDERABLE |||
        VISIBLE_SPOT_SHADOW_RENDERABLE K) ≠ 0) ∧
    (∀ m ∈ (prepPartition K ms).1.drop (prepareRanges K ms).merged.last,
      m &&& (VISIBLE_RENDERABLE ||| VISIBLE_DIR_SHADOW_RENDERABLE |||
        VISIBLE_SPOT_SHADOW_RENDERABLE K) = 0) := by
  have hiff : ∀ m : ℕ,
      (m &&& (VISIBLE_RENDERABLE ||| VISIBLE_DIR_SHADOW_RENDERABLE |||
        VISIBLE_SPOT_SHADOW_RENDERABLE K) = 0) ↔
      (m &&& (VISIBLE_RENDERABLE ||| VISIBLE_DIR_SHADOW_RENDERABLE) = 0 ∧
        m &&& VISIBLE_SPOT_SHADOW_RENDERABLE K = 0) := fun m => by
    rw [Nat.and_or_distrib_left, or_eq_zero_iffN]
  refine ⟨rfl, ?_, rfl, ?_, ?_, rfl, ?_, ?_⟩
  · simp only [uploadPerformed, ne_eq, decide_eq_true_eq, Nat.mul_eq_zero,
      not_or]
    constructor
    · intro hc; exact hc.1
    · intro hc; exact ⟨hc, by omega⟩
  · rw [prepareRanges_eq, prepPartition_eq]
    dsimp only
    omega
  · rw [prepareRanges_eq, prepPartition_eq]
    dsimp only
    omega
  · intro m hm
    rw [prepareRanges_eq] at hm
    rw [prepPartition_eq] at hm
    dsimp only at hm
    simp only [Nat.add_assoc, List.take_append, List.take_left] at hm
    rw [ne_eq, hiff]
    rcases List.mem_append.mp hm with h1 | hm1
    · have hk := mem_group1_key ms m h1
      rw [low_mask_eq_three] at hk
      simp only [VISIBLE_RENDERABLE] at hk
      rintro ⟨hz, _⟩
      rw [low_mask_eq_three] at hz
      omega
    rcases List.mem_append.mp hm1 with h2 | hm2
    · have hk := mem_group2_key ms m h2
      rw [low_mask_eq_three] at hk
      rintro ⟨hz, _⟩
      rw [low_mask_eq_three] at hz
      omega
    rcases List.mem_append.mp hm2 with h3 | h4
    · have hk := mem_group3_key ms m h3
      rw [low_mask_eq_three] at hk
      simp only [VISIBLE_DIR_SHADOW_RENDERABLE] at hk
      rintro ⟨hz, _⟩
      rw [low_mask_eq_three] at hz
      omega
    · obtain ⟨_, hsp⟩ := List.mem_filter.mp h4
      have hs : m &&& VISIBLE_SPOT_SHADOW_RENDERABLE K ≠ 0 := by
        simpa [spotPred] using hsp
      rintro ⟨_, hz⟩
      exact hs hz
  · intro m hm
    rw [prepareRanges_eq] at hm
    rw [prepPartition_eq] at hm
    dsimp only at hm
    simp only [Nat.add_assoc, List.drop_append, List.drop_left] at hm
    obtain ⟨hmem, hsp⟩ := List.mem_filter.mp hm
    rw [hiff]
    refine ⟨mem_rest3_key ms m hmem, ?_⟩
    simpa [spotPred] using hsp

/-- Witness for C9 at a concrete mask array: the upload predicate agrees
with non-emptiness of the merged range. -/
theorem prepare_merged_upload_range_witness :
    (0 : ℕ) < 64 ∧
      (uploadPerformed 1 [1, 3, 2, 4, 0] 64 = true ↔
        (prepareRanges 1 [1, 3, 2, 4, 0]).merged.size ≠ 0) :=
  ⟨by decide, (prepare_merged_upload_range 1 [1, 3, 2, 4, 0] 64 (by decide)).2.1⟩

/-- C5: each recomputed visibility mask of FView::computeVisibilityMasks
satisfies: bit 0 (renderable-visible) holds exactly when the layer intersects
the visible layers and (culling is disabled or the geometric renderable bit
was set); bit 1 (directional-shadow-caster) is the analogous condition on the
geometric directional-shadow bit, additionally requiring that the object
casts shadows; and each spot-shadow slot bit 2 + j is the analogous
conjunction using slot j's geometric bit. -/
theorem computeVisibilityMask_spec (K vL layer : ℕ) (v : Visibility)
    (mask : ℕ) :
    ((computeVisibilityMask K vL layer v mask).testBit 0 =
      (decide ((layer &&& vL) ≠ 0) && (!v.culling || mask.testBit 0))) ∧
    ((computeVisibilityMask K vL layer v mask).testBit 1 =
      (decide ((layer &&& vL) ≠ 0) && (!v.culling || mask.testBit 1)
        && v.castShadows)) ∧
    (∀ j, j < K →
      (computeVisibilityMask K vL layer v mask).testBit (2 + j) =
        (decide ((layer &&& vL) ≠ 0) && (!v.culling || mask.testBit (2 + j))
          && v.castShadows)) := by
  have hfold : computeVisibilityMask K vL layer v mask =
      (List.range K).foldl
        (fun acc j => acc ||| spotShadowContribution vL layer v mask j)
        ((cond ((!v.culling || decide ((mask &&& VISIBLE_RENDERABLE) ≠ 0))
            && decide ((layer &&& vL) ≠ 0)) 1 0) |||
         ((cond ((!v.culling || decide ((mask &&& VISIBLE_DIR_SHADOW_RENDERABLE) ≠ 0))
            && decide ((layer &&& vL) ≠ 0) && v.castShadows) 1 0) <<< 1)) := rfl
  have hb0 : ((mask &&& VISIBLE_RENDERABLE) ≠ 0) ↔ mask.testBit 0 = true := by
    simpa [VISIBLE_RENDERABLE] using and_shift_ne_zero mask 0
  have hb1 : ((mask &&& VISIBLE_DIR_SHADOW_RENDERABLE) ≠ 0) ↔
      mask.testBit 1 = true := by
    simpa [VISIBLE_DIR_SHADOW_RENDERABLE, Nat.shiftLeft_eq] using
      and_shift_ne_zero mask 1
  have hbj : ∀ j, ((mask &&& VISIBLE_SPOT_SHADOW_RENDERABLE_N j) ≠ 0) ↔
      mask.testBit (2 + j) = true := fun j => by
    simpa [VISIBLE_SPOT_SHADOW_RENDERABLE_N] using and_shift_ne_zero mask (2 + j)
  refine ⟨?_, ?_, ?_⟩
  · have hnoj : ∀ j : ℕ, ¬((0 : ℕ) = 2 + j) := by omega
    rw [Bool.eq_iff_iff, hfold, foldl_or_testBit]
    simp only [Nat.testBit_or, Nat.testBit_shiftLeft, cond_one_zero_testBit,
      spotShadowContribution_testBit, Bool.or_eq_true, Bool.and_eq_true,
      decide_eq_true_eq, hb0, hnoj]
    simp
    tauto
  · have hnoj : ∀ j : ℕ, ¬((1 : ℕ) = 2 + j) := by omega
    rw [Bool.eq_iff_iff, hfold, foldl_or_testBit]
    simp only [Nat.testBit_or, Nat.testBit_shiftLeft, cond_one_zero_testBit,
      spotShadowContribution_testBit, Bool.or_eq_true, Bool.and_eq_true,
      decide_eq_true_eq, hb1, hnoj]
    simp
    tauto
  · intro j hj
    rw [Bool.eq_iff_iff, hfold, foldl_or_testBit]
    have hbase := base_testBit_ge_two
      ((!v.culling || decide ((mask &&& VISIBLE_RENDERABLE) ≠ 0))
        && decide ((layer &&& vL) ≠ 0))
      ((!v.culling || decide ((mask &&& VISIBLE_DIR_SHADOW_RENDERABLE) ≠ 0))
        && decide ((layer &&& vL) ≠ 0) && v.castShadows)
      (2 + j) (by omega)
    rw [hbase]
    simp only [Bool.false_eq_true, false_or, spotShadowContribution_testBit]
    constructor
    · rintro ⟨j2, hj2K, hje, hcond⟩
      have hj2 : j2 = j := by omega
      rw [hj2] at hcond
      simp only [Bool.and_eq_true, Bool.or_eq_true, decide_eq_true_eq] at hcond ⊢
      rcases hcond with ⟨⟨hcull, hl⟩, hcast⟩
      refine ⟨⟨hl, ?_⟩, hcast⟩
      rcases hcull with h | h
      · exact Or.inl h
      · exact Or.inr ((hbj j).mp h)
    · intro h
      refine ⟨j, hj, rfl, ?_⟩
      simp only [Bool.and_eq_true, Bool.or_eq_true, decide_eq_true_eq] at h ⊢
      rcases h with ⟨⟨hl, hcull⟩, hcast⟩
      refine ⟨⟨?_, hl⟩, hcast⟩
      rcases hcull with h | h
      · exact Or.inl h
      · exact Or.inr ((hbj j).mpr h)

/-- Witness for C5 at a concrete element: one spot slot, all flags set,
mask bits present, culling enabled. -/
theorem computeVisibilityMask_spec_witness :
    (0 : ℕ) < 1 ∧
      (computeVisibilityMask 1 255 1 ⟨true, true, false⟩ 7).testBit (2 + 0) =
        (decide (((1 : ℕ) &&& 255) ≠ 0) &&
          (!(true : Bool) || (7 : ℕ).testBit (2 + 0)) && true) :=
  ⟨by decide,
    (computeVisibilityMask_spec 1 255 1 ⟨true, true, false⟩ 7).2.2 0 (by decide)⟩

/-- C8: FView::prepareShadowing registers at most cap =
CONFIG_MAX_SHADOW_CASTING_SPOTS spot shadow maps: scanning the positional
lights in order, the number of addSpotShadowMap registrations is exactly the
number of shadow-casting spot lights truncated at the cap, so once the cap is
reached all further shadow-casting spot lights are silently skipped and no
error is raised (the model has no error outcome, mirroring the source, which
merely breaks out of the loop). -/
theorem prepareShadowing_spot_cap (cap : ℕ) (hcap : 1 ≤ cap)
    (lightData : List LightRecord) :
    (addSpotShadowMapCalls cap lightData).length =
      min cap ((lightData.drop 1).filter spotQualifies).length := by
  unfold addSpotShadowMapCalls
  rw [spotLoop_length cap _ 1 0 (by omega)]
  simp

set_option maxRecDepth 4000 in
/-- Witness for C8, the scenario of the spec: 300 shadow-casting spot lights
behind the directional entry, cap 4: exactly 4 registrations. -/
theorem prepareShadowing_spot_cap_witness :
    1 ≤ 4 ∧
      (addSpotShadowMapCalls 4 (List.replicate 301 spotSample)).length =
        min 4 (((List.replicate 301 spotSample).drop 1).filter spotQualifies).length ∧
      (addSpotShadowMapCalls 4 (List.replicate 301 spotSample)).length = 4 := by
  refine ⟨by decide, prepareShadowing_spot_cap 4 (by decide) _, ?_⟩
  rw [prepareShadowing_spot_cap 4 (by decide) _]
  decide

/-- C10: FView::setVisibleLayers performs a masked write on the 8-bit
visible-layers state: each bit selected by the select mask takes the
corresponding bit of values, and every bit outside select keeps its previous
value. -/
theorem setVisibleLayers_masked_write (old select values i : ℕ) (hi : i < 8) :
    (setVisibleLayers old select values).testBit i =
      if select.testBit i then values.testBit i else old.testBit i := by
  have hbit : Nat.testBit 255 i = true := by
    have h255 : (255 : ℕ) = 2 ^ 8 - 1 := by norm_num
    rw [h255, Nat.testBit_two_pow_sub_one]
    simpa using hi
  unfold setVisibleLayers
  cases hs : select.testBit i <;>
    simp [Nat.testBit_or, Nat.testBit_and, Nat.testBit_xor, hbit, hs]

/-- Witness for C10 at a concrete state: select bit 0 is set, so the result
takes bit 0 of values. -/
theorem setVisibleLayers_masked_write_witness :
    (0 : ℕ) < 8 ∧
      (setVisibleLayers 170 15 85).testBit 0 =
        if (15 : ℕ).testBit 0 then (85 : ℕ).testBit 0 else (170 : ℕ).testBit 0 :=
  ⟨by decide, setVisibleLayers_masked_write 170 15 85 0 (by decide)⟩

/-- C2: for every light array with at least one positional light, and for
every outcome of the sphere-frustum culling test, prepareVisibleLights keeps
at least one light, and index 0 still holds the directional light's record
(only its scratch visibility flag may differ): the directional light is not
removed by the filtering loop (which starts at index 1), the partition (which
starts at begin + 1), the sort (which starts past the directional slot), or
the final resize (whose size is at least DIRECTIONAL_LIGHTS_COUNT = 1), and
since the theorem holds for every sphereTest, the culling test outcome never
affects the directional light's retention. -/
theorem prepareVisibleLights_directional (cap : ℕ)
    (sphereTest : LightRecord → Bool) (view : Float3 → Float3)
    (planes : List Float4) (dir : LightRecord) (rest : List LightRecord)
    (hrest : rest ≠ []) :
    1 ≤ (prepareVisibleLights cap sphereTest view planes (dir :: rest)).length ∧
    ∃ b : Bool,
      (prepareVisibleLights cap sphereTest view planes (dir :: rest)).head? =
        some { dir with visible := b } := by
  unfold prepareVisibleLights
  simp only [List.map_cons]
  have hmin : min (1 + (((rest.map (fun l => { l with visible := sphereTest l })).map
      (cullLightStep planes)).filter (fun l => l.visible)).length) (cap + 1) =
      min ((((rest.map (fun l => { l with visible := sphereTest l })).map
        (cullLightStep planes)).filter (fun l => l.visible)).length) cap + 1 := by
    omega
  rw [hmin, List.take_succ_cons]
  constructor
  · simp
  · exact ⟨sphereTest dir, rfl⟩

/-- Witness for C2 at a concrete two-light array. -/
theorem prepareVisibleLights_directional_witness :
    ([spotSample] ≠ ([] : List LightRecord)) ∧
      1 ≤ (prepareVisibleLights 256 (fun _ => true) (fun p => p) []
        (spotSample :: [spotSample])).length :=
  ⟨by simp,
    (prepareVisibleLights_directional 256 (fun _ => true) (fun p => p) []
      spotSample [spotSample] (by simp)).1⟩

/-- The mergeSort comparator on squared camera distance is transitive and
total, so the sorted visible sublist is pairwise ordered by non-decreasing
distance. -/
theorem mergeSort_distLE_pairwise (view : Float3 → Float3)
    (vis : List LightRecord) :
    (vis.mergeSort (distLE view)).Pairwise
      (fun a b => distSq view a ≤ distSq view b) := by
  have h := @List.sorted_mergeSort LightRecord (distLE view)
    (fun a b c hab hbc => by
      simp only [distLE, decide_eq_true_eq] at hab hbc ⊢
      exact le_trans hab hbc)
    (fun a b => by
      simp only [distLE, Bool.or_eq_true, decide_eq_true_eq]
      exact le_total _ _)
    vis
  exact h.imp (fun hab => by simpa [distLE] using hab)

/-- Shape of the light list produced by the sort-then-cap tail of
prepareVisibleLights: keeping the directional head and a prefix of the
sorted visible lights gives a sorted tail bounded by the cap, and every kept
positional light is at least as close as every light dropped by the cut. -/
theorem take_cons_append_spec (view : Float3 → Float3) (cap : ℕ)
    (d : LightRecord) (vis invis : List LightRecord) :
    ((d :: (vis.mergeSort (distLE view) ++ invis)).take
        (min (1 + vis.length) (cap + 1))).length ≤ cap + 1 ∧
    List.Sorted (fun a b => distSq view a ≤ distSq view b)
      ((d :: (vis.mergeSort (distLE view) ++ invis)).take
        (min (1 + vis.length) (cap + 1))).tail ∧
    ((d :: (vis.mergeSort (distLE view) ++ invis)).take
        (min (1 + vis.length) (cap + 1))).tail =
      (vis.mergeSort (distLE view)).take
        (((d :: (vis.mergeSort (distLE view) ++ invis)).take
          (min (1 + vis.length) (cap + 1))).length - 1) ∧
    (∀ a ∈ ((d :: (vis.mergeSort (distLE view) ++ invis)).take
        (min (1 + vis.length) (cap + 1))).tail,
      ∀ b ∈ (vis.mergeSort (distLE view)).drop
        (((d :: (vis.mergeSort (distLE view) ++ invis)).take
          (min (1 + vis.length) (cap + 1))).length - 1),
      distSq view a ≤ distSq view b) := by
  have hsvlen : (vis.mergeSort (distLE view)).length = vis.length :=
    (List.mergeSort_perm vis (distLE view)).length_eq
  have hmin : min (1 + vis.length) (cap + 1) = min vis.length cap + 1 := by
    omega
  have hkle : min vis.length cap ≤ (vis.mergeSort (distLE view)).length := by
    omega
  have hshape : (d :: (vis.mergeSort (distLE view) ++ invis)).take
      (min (1 + vis.length) (cap + 1)) =
      d :: (vis.mergeSort (distLE view)).take (min vis.length cap) := by
    rw [hmin, List.take_succ_cons, List.take_append_of_le_length hkle]
  have hlen : ((d :: (vis.mergeSort (distLE view) ++ invis)).take
      (min (1 + vis.length) (cap + 1))).length = min vis.length cap + 1 := by
    rw [hshape]
    simp only [List.length_cons, List.length_take]
    omega
  have hsorted := mergeSort_distLE_pairwise view vis
  refine ⟨?_, ?_, ?_, ?_⟩
  · rw [hlen]; omega
  · rw [hshape, List.tail_cons]
    exact List.Pairwise.sublist (List.take_sublist _ _) hsorted
  · rw [hshape, List.tail_cons]
    simp only [List.length_cons, List.length_take]
    rw [show min (min vis.length cap) (vis.mergeSort (distLE view)).length + 1 - 1
        = min vis.length cap from by omega]
  · rw [hshape, List.tail_cons]
    simp only [List.length_cons, List.length_take]
    rw [show min (min vis.length cap) (vis.mergeSort (distLE view)).length + 1 - 1
        = min vis.length cap from by omega]
    intro a ha b hb
    have hsplit := List.pairwise_append.mp
      (show ((vis.mergeSort (distLE view)).take (min vis.length cap) ++
          (vis.mergeSort (distLE view)).drop (min vis.length cap)).Pairwise
          (fun a b => distSq view a ≤ distSq view b) by
        rw [List.take_append_drop]
        exact hsorted)
    exact hsplit.2.2 a ha b hb

/-- C3: when FView::prepareVisibleLights returns, the retained list has at
most CONFIG_MAX_LIGHT_COUNT (= cap) positional lights plus the directional
slot; the retained positional lights (the tail past index 0) are ordered by
non-decreasing camera-space distance (stated on the squared distance, which
orders identically to the length of the view-transformed position since both
are nonnegative); and they form a prefix of the distance-sorted visible
lights, so every retained positional light is at least as close as every
light beyond the cap dropped by the final resize. -/
theorem prepareVisibleLights_sorted_capped (cap : ℕ)
    (sphereTest : LightRecord → Bool) (view : Float3 → Float3)
    (planes : List Float4) (lights : List LightRecord) :
    (prepareVisibleLights cap sphereTest view planes lights).length ≤ cap + 1 ∧
    List.Sorted (fun a b => distSq view a ≤ distSq view b)
      (prepareVisibleLights cap sphereTest view planes lights).tail ∧
    (prepareVisibleLights cap sphereTest view planes lights).tail =
      (sortedVisibleLights sphereTest view planes lights).take
        ((prepareVisibleLights cap sphereTest view planes lights).length - 1) ∧
    (∀ a ∈ (prepareVisibleLights cap sphereTest view planes lights).tail,
      ∀ b ∈ (sortedVisibleLights sphereTest view planes lights).drop
        ((prepareVisibleLights cap sphereTest view planes lights).length - 1),
      distSq view a ≤ distSq view b) := by
  cases lights with
  | nil =>
    have h0 : prepareVisibleLights cap sphereTest view planes [] = [] := rfl
    have h1 : sortedVisibleLights sphereTest view planes [] = [] := rfl
    rw [h0, h1]
    refine ⟨by simp, by simp, by simp, ?_⟩
    intro a ha
    simp at ha
  | cons dir rest =>
    exact take_cons_append_spec view cap { dir with visible := sphereTest dir }
      (((rest.map (fun l => { l with visible := sphereTest l })).map
        (cullLightStep planes)).filter (fun l => l.visible))
      (((rest.map (fun l => { l with visible := sphereTest l })).map
        (cullLightStep planes)).filter (fun l => !l.visible))

unseal Rat.mul Rat.add Rat.sub Nat.gcd List.merge List.mergeSort in
/-- Witness for C3 at a concrete three-light array with cap 1: the near
light is retained in the tail, the far light is dropped by the resize, and
the theorem yields that the retained light is at least as close. -/
theorem prepareVisibleLights_sorted_capped_witness :
    nearSample ∈
      (prepareVisibleLights 1 (fun _ => true) (fun p => p) []
        [spotSample, farSample, nearSample]).tail ∧
    farSample ∈
      (sortedVisibleLights (fun _ => true) (fun p => p) []
        [spotSample, farSample, nearSample]).drop
        ((prepareVisibleLights 1 (fun _ => true) (fun p => p) []
          [spotSample, farSample, nearSample]).length - 1) ∧
    distSq (fun p => p) nearSample ≤ distSq (fun p => p) farSample :=
  ⟨by decide, by decide,
    (prepareVisibleLights_sorted_capped 1 (fun _ => true) (fun p => p) []
      [spotSample, farSample, nearSample]).2.2.2 nearSample (by decide)
      farSample (by decide)⟩

/-- C4: within the filtering loop of FView::prepareVisibleLights, a
positional light whose visibility flag survived the sphere-frustum test has
the flag cleared if and only if it is not a light caster, or its intensity is
non-positive, or it is a spot light for which some frustum plane satisfies
the cone/frustum separation test (1 - c*c < cosSqr, c > 0 and p > 0, with
c the dot product of the plane normal and the light axis and p the signed
distance term); every other visible positional light passes through the
filtering step unchanged. -/
theorem cullLightStep_spec (planes : List Float4) (l : LightRecord)
    (hv : l.visible = true) :
    ((cullLightStep planes l).visible = false ↔
      (l.isLightCaster = false ∨ l.intensity ≤ 0 ∨
        (l.isSpot = true ∧ ∃ pl ∈ planes,
          1 - dot3 pl.xyz l.direction * dot3 pl.xyz l.direction <
              l.cosOuterSquared ∧
            0 < dot3 pl.xyz l.direction ∧
            0 < dot3 (fadd l.posRadius.xyz (fscale pl.xyz pl.w)) pl.xyz))) ∧
    ((cullLightStep planes l).visible = true → cullLightStep planes l = l) := by
  have hspot : (spotConeCull planes l.posRadius.xyz l.direction
      l.cosOuterSquared = true) ↔
      ∃ pl ∈ planes,
        1 - dot3 pl.xyz l.direction * dot3 pl.xyz l.direction <
            l.cosOuterSquared ∧
          0 < dot3 pl.xyz l.direction ∧
          0 < dot3 (fadd l.posRadius.xyz (fscale pl.xyz pl.w)) pl.xyz := by
    unfold spotConeCull
    simp only [List.any_eq_true, Bool.and_eq_true, decide_eq_true_eq]
    constructor
    · rintro ⟨pl, hpl, ⟨hcos, hc⟩, hp⟩
      exact ⟨pl, hpl, hcos, hc, hp⟩
    · rintro ⟨pl, hpl, hcos, hc, hp⟩
      exact ⟨pl, hpl, ⟨hcos, hc⟩, hp⟩
  unfold cullLightStep
  rw [if_pos hv]
  cases hcast : l.isLightCaster
  · simp only [Bool.not_false, if_true]
    refine ⟨?_, ?_⟩
    · simp
    · intro hcontra
      simp at hcontra
  · simp only [Bool.not_true, Bool.false_eq_true, if_false]
    by_cases hint : l.intensity ≤ 0
    · rw [if_pos hint]
      refine ⟨?_, ?_⟩
      · simp [hint]
      · intro hcontra
        simp at hcontra
    · rw [if_neg hint]
      cases hsc : (l.isSpot && spotConeCull planes l.posRadius.xyz l.direction
          l.cosOuterSquared)
      · simp only [Bool.false_eq_true, if_false]
        refine ⟨?_, by intro hvis; exact True.intro⟩
        rw [hv]
        simp only [Bool.true_eq_false, false_iff]
        rintro (h | h | ⟨hsp, hex⟩)
        · exact h
        · exact hint h
        · rw [Bool.and_eq_false_iff] at hsc
          rcases hsc with h2 | h2
          · rw [hsp] at h2
            exact absurd h2 (by simp)
          · rw [hspot.mpr hex] at h2
            exact absurd h2 (by simp)
      · simp only [if_true]
        refine ⟨?_, ?_⟩
        · simp only [Bool.and_eq_true] at hsc
          simp only [true_iff]
          exact Or.inr (Or.inr ⟨hsc.1, hspot.mp hsc.2⟩)
        · intro hcontra
          simp at hcontra

/-- Witness for C4: a visible positional light with positive intensity that
is a light caster and not a spot light survives unchanged. -/
theorem cullLightStep_spec_witness :
    ((⟨⟨0, 0, 0, 1⟩, ⟨0, 0, 1⟩, true, true, true, 1, false, 0, false, 3⟩ :
        LightRecord).visible = true) ∧
      ((cullLightStep []
          ⟨⟨0, 0, 0, 1⟩, ⟨0, 0, 1⟩, true, true, true, 1, false, 0, false, 3⟩).visible =
          true →
        cullLightStep []
          ⟨⟨0, 0, 0, 1⟩, ⟨0, 0, 1⟩, true, true, true, 1, false, 0, false, 3⟩ =
          ⟨⟨0, 0, 0, 1⟩, ⟨0, 0, 1⟩, true, true, true, 1, false, 0, false, 3⟩) :=
  ⟨rfl,
    (cullLightStep_spec []
      ⟨⟨0, 0, 0, 1⟩, ⟨0, 0, 1⟩, true, true, true, 1, false, 0, false, 3⟩ rfl).2⟩

/-- C6: after any FView::updateScale call with dynamic resolution enabled
and sanitized bounds (setDynamicResolutionOptions guarantees
minScale ≤ maxScale when enabling), each component of the internal scale
state lies within the configured bounds; when the frame-timing sample is
invalid, the state is clamp(1, minScale, maxScale), that value is returned
directly, and the result does not depend on the PID controller output at all
(the controller is not run). -/
theorem updateScale_within_bounds (sqrtA : ℚ → ℚ) (pidOut : ℚ)
    (options : DynResOptions) (infoValid : Bool) (w h : ℚ) (mScale : Float2)
    (hen : options.enabled = true)
    (hx : options.minScale.x ≤ options.maxScale.x)
    (hy : options.minScale.y ≤ options.maxScale.y) :
    (options.minScale.x ≤
        (updateScale sqrtA pidOut options infoValid w h mScale).internal.x ∧
      (updateScale sqrtA pidOut options infoValid w h mScale).internal.x ≤
        options.maxScale.x ∧
      options.minScale.y ≤
        (updateScale sqrtA pidOut options infoValid w h mScale).internal.y ∧
      (updateScale sqrtA pidOut options infoValid w h mScale).internal.y ≤
        options.maxScale.y) ∧
    (infoValid = false →
      (updateScale sqrtA pidOut options infoValid w h mScale).internal =
        clamp2 ⟨1, 1⟩ options.minScale options.maxScale ∧
      (updateScale sqrtA pidOut options infoValid w h mScale).reported =
        (updateScale sqrtA pidOut options infoValid w h mScale).internal ∧
      ∀ pid2 : ℚ, updateScale sqrtA pid2 options infoValid w h mScale =
        updateScale sqrtA pidOut options infoValid w h mScale) := by
  constructor
  · obtain ⟨s, hs⟩ := updateScale_internal_clamp sqrtA pidOut options
      infoValid w h mScale hen
    rw [hs]
    exact ⟨(clampQ_mem s.x _ _ hx).1, (clampQ_mem s.x _ _ hx).2,
      (clampQ_mem s.y _ _ hy).1, (clampQ_mem s.y _ _ hy).2⟩
  · intro hv
    subst hv
    refine ⟨?_, ?_, fun p2 => ?_⟩ <;>
      simp only [updateScale, hen, Bool.not_false, if_true]

/-- Witness for C6 at concrete inputs, invalid frame-timing sample. -/
theorem updateScale_within_bounds_witness :
    (⟨true, true, ⟨1/2, 1/2⟩, ⟨1, 1⟩⟩ : DynResOptions).enabled = true ∧
    ((1 : ℚ)/2 ≤ 1) ∧
    (updateScale (fun q => q) 0 ⟨true, true, ⟨1/2, 1/2⟩, ⟨1, 1⟩⟩ false
      1920 1080 ⟨1, 1⟩).internal.x ≤ 1 := by
  refine ⟨rfl, by norm_num, ?_⟩
  have hb := updateScale_within_bounds (fun q => q) 0
    ⟨true, true, ⟨1/2, 1/2⟩, ⟨1, 1⟩⟩ false 1920 1080 ⟨1, 1⟩ rfl
    (by norm_num) (by norm_num)
  exact hb.1.2.1

/-- Counterexample to C7 as stated: with dynamic resolution enabled but an
invalid frame-timing sample, FView::updateScale returns the clamped internal
scale unrounded (View.cpp line 172), so with maxScale = 0.703 and a 1920-wide
viewport the reported x-scale is 0.703, which is not 1 and for which
0.703 * 1920 = 1349.76 is not a multiple of 8. -/
theorem updateScale_rounding_counterexample :
    (updateScale (fun q => q) 0
        ⟨true, true, ⟨703/1000, 703/1000⟩, ⟨703/1000, 703/1000⟩⟩
        false 1920 1080 ⟨1, 1⟩).internal.x ≠ 1 ∧
    ¬∃ k : ℤ,
      (updateScale (fun q => q) 0
          ⟨true, true, ⟨703/1000, 703/1000⟩, ⟨703/1000, 703/1000⟩⟩
          false 1920 1080 ⟨1, 1⟩).reported.x * 1920 = 8 * k := by
  have hint : (updateScale (fun q => q) 0
      ⟨true, true, ⟨703/1000, 703/1000⟩, ⟨703/1000, 703/1000⟩⟩
      false 1920 1080 ⟨1, 1⟩).internal.x = 703/1000 := by
    norm_num [updateScale, clamp2, clampQ, min_def, max_def]
  have hrep : (updateScale (fun q => q) 0
      ⟨true, true, ⟨703/1000, 703/1000⟩, ⟨703/1000, 703/1000⟩⟩
      false 1920 1080 ⟨1, 1⟩).reported.x = 703/1000 := by
    norm_num [updateScale, clamp2, clampQ, min_def, max_def]
  constructor
  · rw [hint]; norm_num
  · rw [hrep]
    rintro ⟨k, hk⟩
    have h3 : (25 * k : ℤ) = 4218 := by
      exact_mod_cast (by linarith : (25 : ℚ) * k = 4218)
    omega

/-- C7 (amended): for FView::updateScale calls with dynamic resolution
enabled and a valid frame-timing sample, the reported scale on each axis
either is exactly 1 (when that axis's internal scale equals 1, returned
unrounded) or, multiplied by that axis's viewport dimension, yields an exact
integer multiple of 8; the internal state keeps the unrounded value (only
the reported value is rounded).  When the sample is invalid, the clamped
scale is returned without rounding (see the counterexample). -/
theorem updateScale_reported_rounding (sqrtA : ℚ → ℚ) (pidOut : ℚ)
    (options : DynResOptions) (w h : ℚ) (mScale : Float2)
    (hen : options.enabled = true) (hw : w ≠ 0) (hh : h ≠ 0) :
    ((updateScale sqrtA pidOut options true w h mScale).internal.x = 1 →
      (updateScale sqrtA pidOut options true w h mScale).reported.x = 1) ∧
    ((updateScale sqrtA pidOut options true w h mScale).internal.x ≠ 1 →
      ∃ k : ℤ,
        (updateScale sqrtA pidOut options true w h mScale).reported.x * w =
          8 * k) ∧
    ((updateScale sqrtA pidOut options true w h mScale).internal.y = 1 →
      (updateScale sqrtA pidOut options true w h mScale).reported.y = 1) ∧
    ((updateScale sqrtA pidOut options true w h mScale).internal.y ≠ 1 →
      ∃ k : ℤ,
        (updateScale sqrtA pidOut options true w h mScale).reported.y * h =
          8 * k) := by
  simp only [updateScale, hen, Bool.not_true, if_true, Bool.false_eq_true,
    if_false]
  refine ⟨?_, ?_, ?_, ?_⟩
  · intro hone; rw [if_pos hone]
  · intro hne; rw [if_neg hne]; exact floor_mul8_div _ w hw
  · intro hone; rw [if_pos hone]
  · intro hne; rw [if_neg hne]; exact floor_mul8_div _ h hh

/-- Witness for the amended C7 at concrete inputs with a valid sample: the
internal x-scale is exactly 1, so the reported x-scale is 1. -/
theorem updateScale_reported_rounding_witness :
    (⟨true, true, ⟨1/2, 1/2⟩, ⟨1, 1⟩⟩ : DynResOptions).enabled = true ∧
    (1920 : ℚ) ≠ 0 ∧ (1080 : ℚ) ≠ 0 ∧
    ((updateScale (fun q => q) 0 ⟨true, true, ⟨1/2, 1/2⟩, ⟨1, 1⟩⟩ true
        1920 1080 ⟨1, 1⟩).internal.x = 1 →
      (updateScale (fun q => q) 0 ⟨true, true, ⟨1/2, 1/2⟩, ⟨1, 1⟩⟩ true
        1920 1080 ⟨1, 1⟩).reported.x = 1) := by
  refine ⟨rfl, by norm_num, by norm_num, ?_⟩
  exact (updateScale_reported_rounding (fun q => q) 0
    ⟨true, true, ⟨1/2, 1/2⟩, ⟨1, 1⟩⟩ 1920 1080 ⟨1, 1⟩ rfl
    (by norm_num) (by norm_num)).1

end ViewSpec
